import Mathlib

/-!
Verification development for the reminder-bot core (recurrence expansion,
scheduling resolver, due-item dispatcher, guardrails, command schemas).

Python values are shallowly embedded:
* Python `str` is modelled as `List Char` (a sequence of Unicode code points).
* Python `datetime.datetime` is modelled as its calendar fields plus an
  optional fixed UTC offset in minutes (`tzinfo` of an aware datetime;
  `none` models a naive datetime).  `timedelta` addition is Python's
  wall-clock arithmetic on the naive fields, the `tzinfo` is kept.
* Python `//` and `%` on ints are floor division/modulus; every divisor in
  the embedded code is positive, where Lean's `Int` `/` and `%`
  (euclidean division) coincide with floor division, so those are used.
* fallible code returns `Except String` or `Option`.
-/

namespace GptBot

/-- Microseconds per day. -/
def usPerDay : Int := 86400000000

/-- Microseconds per hour. -/
def usPerHour : Int := 3600000000

/-- Microseconds per minute. -/
def usPerMinute : Int := 60000000

/-- Python `calendar.isleap` / the leap-year rule used by `monthrange`. -/
def isLeapYear (y : Int) : Bool :=
  y % 4 = 0 && (y % 100 ≠ 0 || y % 400 = 0)

/-- `calendar.monthrange(y, m)[1]`: number of days of month `m` of year `y`. -/
def daysInMonth (y : Int) (m : Nat) : Nat :=
  if m = 2 then (if isLeapYear y then 29 else 28)
  else if m = 4 ∨ m = 6 ∨ m = 9 ∨ m = 11 then 30
  else 31

/-- Days since 1970-01-01 of a proleptic-Gregorian civil date
(the arithmetic `datetime.date.toordinal` performs, shifted to the Unix
epoch). -/
def daysFromCivil (y : Int) (m : Nat) (d : Nat) : Int :=
  let y2 : Int := if m ≤ 2 then y - 1 else y
  let era : Int := y2 / 400
  let yoe : Int := y2 - era * 400
  let mp : Int := ((m : Int) + 9) % 12
  let doy : Int := (153 * mp + 2) / 5 + (d : Int) - 1
  let doe : Int := yoe * 365 + yoe / 4 - yoe / 100 + doy
  era * 146097 + doe - 719468

/-- Civil date (year, month, day) from days since 1970-01-01; inverse of
`daysFromCivil` on valid dates. -/
def civilFromDays (z0 : Int) : Int × Nat × Nat :=
  let z : Int := z0 + 719468
  let era : Int := z / 146097
  let doe : Int := z - era * 146097
  let yoe : Int := (doe - doe / 1460 + doe / 36524 - doe / 146096) / 365
  let y : Int := yoe + era * 400
  let doy : Int := doe - (365 * yoe + yoe / 4 - yoe / 100)
  let mp : Int := (5 * doy + 2) / 153
  let d : Int := doy - (153 * mp + 2) / 5 + 1
  let m : Int := if mp < 10 then mp + 3 else mp - 9
  (if m ≤ 2 then y + 1 else y, m.toNat, d.toNat)

/-- Python `datetime.date`: a civil calendar date. -/
structure PyDate where
  year : Int
  month : Nat
  day : Nat
deriving DecidableEq, Repr

/-- Python `date` comparison (lexicographic on the fields). -/
def pyDateLe (a b : PyDate) : Bool :=
  a.year < b.year ||
    (a.year = b.year &&
      (a.month < b.month || (a.month = b.month && a.day ≤ b.day)))

/-- The next civil day after `d` (what `.date()` of `dt + timedelta(days=1)`
produces for a well-formed `dt`). -/
def nextDate (d : PyDate) : PyDate :=
  let c := civilFromDays (daysFromCivil d.year d.month d.day + 1)
  ⟨c.1, c.2.1, c.2.2⟩

/-- Python `datetime.datetime`, calendar fields plus an optional fixed UTC
offset in minutes (`none` = naive). -/
structure PyDateTime where
  year : Int
  month : Nat
  day : Nat
  hour : Nat
  minute : Nat
  second : Nat
  microsecond : Nat
  tzOffsetMinutes : Option Int
deriving DecidableEq, Repr

/-- `dt.date()`. -/
def PyDateTime.dateOf (dt : PyDateTime) : PyDate :=
  ⟨dt.year, dt.month, dt.day⟩

/-- Naive microseconds since 1970-01-01T00:00 of the calendar fields
(ignoring the offset). -/
def PyDateTime.naiveUs (dt : PyDateTime) : Int :=
  daysFromCivil dt.year dt.month dt.day * usPerDay
    + (dt.hour : Int) * usPerHour
    + (dt.minute : Int) * usPerMinute
    + (dt.second : Int) * 1000000
    + (dt.microsecond : Int)

/-- Rebuild normalized calendar fields from naive microseconds. -/
def pyDateTimeFromNaiveUs (us : Int) (tz : Option Int) : PyDateTime :=
  let days := us / usPerDay
  let rem := us % usPerDay
  let c := civilFromDays days
  { year := c.1
    month := c.2.1
    day := c.2.2
    hour := (rem / usPerHour).toNat
    minute := ((rem % usPerHour) / usPerMinute).toNat
    second := ((rem % usPerMinute) / 1000000).toNat
    microsecond := (rem % 1000000).toNat
    tzOffsetMinutes := tz }

/-- Python `dt + timedelta(microseconds=delta)`: wall-clock arithmetic on
the naive fields, the `tzinfo` is kept unchanged. -/
def addTimedeltaUs (dt : PyDateTime) (delta : Int) : PyDateTime :=
  pyDateTimeFromNaiveUs (dt.naiveUs + delta) dt.tzOffsetMinutes

/-- Absolute (UTC) microseconds of an aware datetime; a naive datetime is
read as offset 0 (the flows below only compare aware values). -/
def PyDateTime.absUs (dt : PyDateTime) : Int :=
  dt.naiveUs - (dt.tzOffsetMinutes.getD 0) * usPerMinute

/-- Python `<` on aware datetimes (comparison of absolute instants). -/
def pyDtLt (a b : PyDateTime) : Bool := a.absUs < b.absUs

/-- Python `dt.astimezone(tz)` for a fixed-offset target timezone. -/
def astimezoneTo (dt : PyDateTime) (targetOffsetMinutes : Int) : PyDateTime :=
  pyDateTimeFromNaiveUs (dt.absUs + targetOffsetMinutes * usPerMinute)
    (some targetOffsetMinutes)

/-- The calendar fields of a datetime are in their normal ranges (what every
value constructed by `datetime` satisfies). -/
def PyDateTime.WF (dt : PyDateTime) : Prop :=
  dt.hour ≤ 23 ∧ dt.minute ≤ 59 ∧ dt.second ≤ 59 ∧ dt.microsecond ≤ 999999

/- ------------------------------------------------------------------
app/core/internal_reminders.py
------------------------------------------------------------------ -/

/-- `INTERNAL_PRE_REMINDER_PREFIX = "__pre1h__::"` (renamed marker). -/
def INTERNAL_PRE_REMINDER_MARKER : List Char := "__pre1h__::".toList

/-- `build_pre_reminder_text(user_text)`. -/
def build_pre_reminder_text (user_text : List Char) : List Char :=
  INTERNAL_PRE_REMINDER_MARKER ++ user_text

/-- `is_internal_pre_reminder(text)`: Python `text.startswith(prefix)`. -/
def is_internal_pre_reminder (text : List Char) : Bool :=
  text.take INTERNAL_PRE_REMINDER_MARKER.length = INTERNAL_PRE_REMINDER_MARKER

/-- `unwrap_internal_text(text)`. -/
def unwrap_internal_text (text : List Char) : List Char :=
  if is_internal_pre_reminder text then
    text.drop INTERNAL_PRE_REMINDER_MARKER.length
  else text

/-- C10: marker wrapping and unwrapping is an exact round-trip:
`unwrap_internal_text (build_pre_reminder_text t) = t`,
`is_internal_pre_reminder (build_pre_reminder_text t)` holds, and any text
that does not start with the marker is returned unchanged by
`unwrap_internal_text`. -/
theorem internal_marker_roundtrip (t s : List Char)
    (hs : is_internal_pre_reminder s = false) :
    unwrap_internal_text (build_pre_reminder_text t) = t ∧
      is_internal_pre_reminder (build_pre_reminder_text t) = true ∧
      unwrap_internal_text s = s := by
  refine ⟨?_, ?_, ?_⟩
  · simp [unwrap_internal_text, is_internal_pre_reminder,
      build_pre_reminder_text, List.take_left, List.drop_left]
  · simp [is_internal_pre_reminder, build_pre_reminder_text, List.take_left]
  · simp [unwrap_internal_text, hs]

/-- Witness for C10 at concrete inputs. -/
theorem internal_marker_roundtrip_witness :
    unwrap_internal_text (build_pre_reminder_text "buy milk".toList)
        = "buy milk".toList ∧
      is_internal_pre_reminder (build_pre_reminder_text "buy milk".toList)
        = true ∧
      unwrap_internal_text "hello".toList = "hello".toList :=
  internal_marker_roundtrip "buy milk".toList "hello".toList (by decide)

/- ------------------------------------------------------------------
Python string primitives used by the embedded code.
------------------------------------------------------------------ -/

/-- Python `str.split(sep)` (all occurrences): `"".split(";") = [""]`. -/
def pySplit (sep : Char) (s : List Char) : List (List Char) :=
  s.foldr
    (fun c acc =>
      match acc with
      | [] => [[c]]
      | cur :: rest => if c = sep then [] :: cur :: rest else (c :: cur) :: rest)
    [[]]

/-- Python `str.split(sep, 1)` when `sep` occurs, `none` when it does not
(the `"=" in token` test of the source). -/
def pySplitFirst (sep : Char) : List Char → Option (List Char × List Char)
  | [] => none
  | c :: cs =>
    if c = sep then some ([], cs)
    else (pySplitFirst sep cs).map (fun p => (c :: p.1, p.2))

/-- Whitespace stripped by Python `str.strip()` (the ASCII part, which is
all that occurs in recurrence rules). -/
def pyIsSpace (c : Char) : Bool :=
  c = ' ' || c = '\t' || c = '\n' || c = '\r'

/-- Python `str.strip()`. -/
def pyStrip (s : List Char) : List Char :=
  ((s.dropWhile pyIsSpace).reverse.dropWhile pyIsSpace).reverse

/-- Python `str.upper()` (ASCII case mapping; rule keys are ASCII). -/
def pyUpper (s : List Char) : List Char :=
  s.map Char.toUpper

/-- Decimal value of a digit string. -/
def pyDigitsVal (s : List Char) : Int :=
  s.foldl (fun acc c => acc * 10 + ((c.toNat : Int) - 48)) 0

/-- Python `int(str)`: optional surrounding whitespace, optional sign, a
nonempty digit run; `none` models the `ValueError`. -/
def pyInt (s : List Char) : Option Int :=
  let t := pyStrip s
  let signed : Int × List Char :=
    match t with
    | [] => (1, [])
    | c :: cs => if c = '-' then (-1, cs) else if c = '+' then (1, cs) else (1, t)
  if signed.2.isEmpty then none
  else if signed.2.all Char.isDigit then some (signed.1 * pyDigitsVal signed.2)
  else none

/-- Python `dict` insert-or-overwrite (insertion order kept). -/
def dictSet (parts : List (List Char × List Char)) (k v : List Char) :
    List (List Char × List Char) :=
  if parts.any (fun p => p.1 == k) then
    parts.map (fun p => if p.1 == k then (k, v) else p)
  else parts ++ [(k, v)]

/-- Python `dict.get(k)`. -/
def dictGet (parts : List (List Char × List Char)) (k : List Char) :
    Option (List Char) :=
  (parts.find? (fun p => p.1 == k)).map Prod.snd

/- ------------------------------------------------------------------
app/services/reminder_service.py: recurrence expansion at creation time.
------------------------------------------------------------------ -/

/-- The token loop of `_expand_recurrence_run_times` /
`compute_next_run_at`: split the rule on `;`, keep tokens containing `=`,
split each once on `=`, strip and upper-case both sides, insert into the
parts dict. -/
def parseRuleParts (rule : List Char) : List (List Char × List Char) :=
  (pySplit ';' rule).foldl
    (fun parts token =>
      match pySplitFirst '=' token with
      | none => parts
      | some kv => dictSet parts (pyUpper (pyStrip kv.1)) (pyUpper (pyStrip kv.2)))
    []

/-- `interval = max(1, int(parts.get("INTERVAL", "1")))` with the
`ValueError` fallback to 1. -/
def ruleInterval (parts : List (List Char × List Char)) : Int :=
  match dictGet parts "INTERVAL".toList with
  | none => 1
  | some v =>
    match pyInt v with
    | some n => max 1 n
    | none => 1

/-- `default_counts` lookup with default 1:
`{"HOURLY": 24, "DAILY": 7, "WEEKLY": 4, "MONTHLY": 12}.get(freq, 1)`. -/
def defaultCountFor (freq : List Char) : Nat :=
  if freq = "HOURLY".toList then 24
  else if freq = "DAILY".toList then 7
  else if freq = "WEEKLY".toList then 4
  else if freq = "MONTHLY".toList then 12
  else 1

/-- `_add_months(base_dt, months)` (shared by service and dispatcher):
month stepping with day-of-month clamped via `monthrange`. -/
def _add_months (base_dt : PyDateTime) (months : Int) : PyDateTime :=
  let m0 : Int := (base_dt.month : Int) + months
  let y : Int := base_dt.year + (m0 - 1) / 12
  let m : Nat := ((m0 - 1) % 12 + 1).toNat
  let max_day : Nat := daysInMonth y m
  { base_dt with year := y, month := m, day := min base_dt.day max_day }

/-- The per-frequency single step of the expansion loop: `timedelta(hours=
interval)`, `timedelta(days=interval)`, `timedelta(weeks=interval)`, or
`_add_months`; `none` for an unknown frequency (for which the loop body
never runs, since its target count is 1). -/
def stepForFreq (freq : List Char) (interval : Int) :
    Option (PyDateTime → PyDateTime) :=
  if freq = "HOURLY".toList then
    some (fun dt => addTimedeltaUs dt (interval * usPerHour))
  else if freq = "DAILY".toList then
    some (fun dt => addTimedeltaUs dt (interval * usPerDay))
  else if freq = "WEEKLY".toList then
    some (fun dt => addTimedeltaUs dt (interval * 7 * usPerDay))
  else if freq = "MONTHLY".toList then
    some (fun dt => _add_months dt interval)
  else none

/-- Total version of `stepForFreq` used in theorem statements. -/
def stepFnFor (freq : List Char) (interval : Int) : PyDateTime → PyDateTime :=
  (stepForFreq freq interval).getD id

/-- The expansion loop `for _ in range(n): runs.append(step(runs[-1]))`. -/
def buildRunsGo (step : PyDateTime → PyDateTime) (first : PyDateTime) :
    Nat → List PyDateTime → List PyDateTime
  | 0, runs => runs
  | n + 1, runs => buildRunsGo step first n (runs ++ [step (runs.getLastD first)])

/-- `_expand_recurrence_run_times(run_at_utc, recurrence_rule)`.  Note the
source never reads an `UNTIL` part: only `FREQ` and `INTERVAL` are
consulted, and the loop always runs to the per-frequency default count. -/
def _expand_recurrence_run_times (run_at_utc : PyDateTime)
    (recurrence_rule : Option (List Char)) : List PyDateTime :=
  match recurrence_rule with
  | none => [run_at_utc]
  | some r =>
    if r = [] then [run_at_utc]
    else
      match dictGet (parseRuleParts r) "FREQ".toList with
      | none => [run_at_utc]
      | some freq =>
        if freq = [] then [run_at_utc]
        else
          match stepForFreq freq (ruleInterval (parseRuleParts r)) with
          | some step =>
            buildRunsGo step run_at_utc (defaultCountFor freq - 1) [run_at_utc]
          | none => [run_at_utc]

/-- The expansion loop turns a `(range (m+1)).map`-shaped accumulator into
the same shape extended by `n` more iterates of the step function. -/
lemma buildRunsGo_range_map (step : PyDateTime → PyDateTime) (t : PyDateTime) :
    ∀ n m : Nat,
      buildRunsGo step t n ((List.range (m + 1)).map (fun i => step^[i] t))
        = (List.range (m + 1 + n)).map (fun i => step^[i] t) := by
  intro n
  induction n with
  | zero => intro m; simp [buildRunsGo]
  | succ k ih =>
    intro m
    have hlast : ((List.range (m + 1)).map (fun i => step^[i] t)).getLastD t
        = step^[m] t := by
      rw [List.range_succ, List.map_append]
      simp
    have happ : (List.range (m + 1)).map (fun i => step^[i] t)
          ++ [step (step^[m] t)]
        = (List.range (m + 1 + 1)).map (fun i => step^[i] t) := by
      rw [List.range_succ (n := m + 1), List.map_append]
      simp [Function.iterate_succ_apply']
    have harith : m + 1 + 1 + k = m + 1 + (k + 1) := by omega
    calc buildRunsGo step t (k + 1) ((List.range (m + 1)).map (fun i => step^[i] t))
        = buildRunsGo step t k
            ((List.range (m + 1)).map (fun i => step^[i] t)
              ++ [step (((List.range (m + 1)).map (fun i => step^[i] t)).getLastD t)]) := by
          rw [buildRunsGo]
      _ = buildRunsGo step t k ((List.range (m + 1 + 1)).map (fun i => step^[i] t)) := by
          rw [hlast, happ]
      _ = (List.range (m + 1 + (k + 1))).map (fun i => step^[i] t) := by
          rw [ih (m + 1), harith]

/-- One case of the expansion computation, for a frequency with step
function `stepForFreq` defined and default count `n + 1`. -/
lemma expand_case_general (t : PyDateTime) (r freq : List Char) (n : Nat)
    (hrne : ¬(r = [])) (hfne : ¬(freq = []))
    (hfreq : dictGet (parseRuleParts r) "FREQ".toList = some freq)
    (hstep : stepForFreq freq (ruleInterval (parseRuleParts r))
      = some (stepFnFor freq (ruleInterval (parseRuleParts r))))
    (hcount : defaultCountFor freq = n + 1) :
    _expand_recurrence_run_times t (some r)
      = (List.range (defaultCountFor freq)).map
          (fun i => (stepFnFor freq (ruleInterval (parseRuleParts r)))^[i] t) := by
  simp only [_expand_recurrence_run_times, if_neg hrne, hfreq, if_neg hfne,
    hstep, hcount]
  have h0 : [t] = (List.range (0 + 1)).map
      (fun i => (stepFnFor freq (ruleInterval (parseRuleParts r)))^[i] t) := by
    simp
  rw [h0, buildRunsGo_range_map]
  have harith : 0 + 1 + (n + 1 - 1) = n + 1 := by omega
  rw [harith]

/-- For a rule whose parsed `FREQ` is one of the four known frequencies,
the creation-time expansion is exactly the per-frequency default count of
iterates of the per-frequency step — no other rule part
(in particular no `UNTIL` bound) influences the result. -/
lemma expand_eq_of_valid_freq (t : PyDateTime) (r freq : List Char)
    (hfreq : dictGet (parseRuleParts r) "FREQ".toList = some freq)
    (hvalid : freq = "HOURLY".toList ∨ freq = "DAILY".toList ∨
      freq = "WEEKLY".toList ∨ freq = "MONTHLY".toList) :
    _expand_recurrence_run_times t (some r)
      = (List.range (defaultCountFor freq)).map
          (fun i => (stepFnFor freq (ruleInterval (parseRuleParts r)))^[i] t) := by
  have hrne : ¬(r = []) := by
    intro h
    subst h
    have h0 : dictGet (parseRuleParts ([] : List Char)) "FREQ".toList = none := by
      decide
    rw [h0] at hfreq
    exact Option.noConfusion hfreq
  rcases hvalid with h | h | h | h <;> subst h
  · exact expand_case_general t r "HOURLY".toList 23 hrne (by decide) hfreq rfl rfl
  · exact expand_case_general t r "DAILY".toList 6 hrne (by decide) hfreq rfl rfl
  · exact expand_case_general t r "WEEKLY".toList 3 hrne (by decide) hfreq rfl rfl
  · exact expand_case_general t r "MONTHLY".toList 11 hrne (by decide) hfreq rfl rfl

/-- C5: for every recurrence rule whose `FREQ` parses to one of HOURLY,
DAILY, WEEKLY, MONTHLY and that carries no explicit end bound (`UNTIL`),
`_expand_recurrence_run_times` produces exactly the per-frequency default
count of occurrences (24, 7, 4, 12 respectively), the `i`-th being the
`i`-fold application of the per-frequency `INTERVAL` step to the first
occurrence — in particular `FREQ=DAILY` yields exactly 7 occurrences
spaced one day apart. -/
theorem expand_recurrence_default_counts (t : PyDateTime) (r freq : List Char)
    (hfreq : dictGet (parseRuleParts r) "FREQ".toList = some freq)
    (hvalid : freq = "HOURLY".toList ∨ freq = "DAILY".toList ∨
      freq = "WEEKLY".toList ∨ freq = "MONTHLY".toList)
    (hnoUntil : dictGet (parseRuleParts r) "UNTIL".toList = none) :
    _expand_recurrence_run_times t (some r)
      = (List.range (defaultCountFor freq)).map
          (fun i => (stepFnFor freq (ruleInterval (parseRuleParts r)))^[i] t) ∧
    (_expand_recurrence_run_times t (some r)).length = defaultCountFor freq := by
  have h := expand_eq_of_valid_freq t r freq hfreq hvalid
  exact ⟨h, by rw [h]; simp⟩

/-- Witness for C5: `FREQ=DAILY` expanded from 2026-02-23T09:00Z gives
exactly 7 daily occurrences. -/
theorem expand_recurrence_default_counts_witness :
    dictGet (parseRuleParts "FREQ=DAILY".toList) "FREQ".toList
        = some "DAILY".toList ∧
      dictGet (parseRuleParts "FREQ=DAILY".toList) "UNTIL".toList = none ∧
      (_expand_recurrence_run_times ⟨2026, 2, 23, 9, 0, 0, 0, some 0⟩
          (some "FREQ=DAILY".toList)).length = 7 :=
  ⟨by decide, by decide,
    (expand_recurrence_default_counts ⟨2026, 2, 23, 9, 0, 0, 0, some 0⟩
      "FREQ=DAILY".toList "DAILY".toList (by decide) (Or.inr (Or.inl rfl))
      (by decide)).2⟩

/-- C1 counterexample: expanding `FREQ=HOURLY` with `UNTIL` two hours after
the first occurrence 2026-02-23T13:00Z does NOT stop at the bound: it
returns 24 occurrences, not the two occurrences `t`, `t+1h` the claim
describes. -/
theorem expand_recurrence_until_counterexample :
    (_expand_recurrence_run_times ⟨2026, 2, 23, 13, 0, 0, 0, some 0⟩
        (some "FREQ=HOURLY;UNTIL=2026-02-23T15:00:00+00:00".toList)).length
        = 24 ∧
      _expand_recurrence_run_times ⟨2026, 2, 23, 13, 0, 0, 0, some 0⟩
          (some "FREQ=HOURLY;UNTIL=2026-02-23T15:00:00+00:00".toList)
        ≠ [⟨2026, 2, 23, 13, 0, 0, 0, some 0⟩,
           ⟨2026, 2, 23, 14, 0, 0, 0, some 0⟩] := by
  decide

/-- C1 (amended): creation-time expansion ignores an explicit `UNTIL`
bound entirely: for every rule whose parsed `FREQ` is HOURLY and that
carries an `UNTIL` part, the expansion still produces the default 24
hourly-stepped occurrences. -/
theorem expand_recurrence_ignores_until (t : PyDateTime) (r u : List Char)
    (hfreq : dictGet (parseRuleParts r) "FREQ".toList = some "HOURLY".toList)
    (hUntil : dictGet (parseRuleParts r) "UNTIL".toList = some u) :
    _expand_recurrence_run_times t (some r)
      = (List.range 24).map
          (fun i => (stepFnFor "HOURLY".toList
            (ruleInterval (parseRuleParts r)))^[i] t) ∧
      (_expand_recurrence_run_times t (some r)).length = 24 := by
  have h := expand_eq_of_valid_freq t r "HOURLY".toList hfreq (Or.inl rfl)
  exact ⟨h, by rw [h]; simp⟩

/-- Witness for the amended C1 at the counterexample rule. -/
theorem expand_recurrence_ignores_until_witness :
    dictGet (parseRuleParts
        "FREQ=HOURLY;UNTIL=2026-02-23T15:00:00+00:00".toList) "FREQ".toList
        = some "HOURLY".toList ∧
      dictGet (parseRuleParts
          "FREQ=HOURLY;UNTIL=2026-02-23T15:00:00+00:00".toList) "UNTIL".toList
        = some "2026-02-23T15:00:00+00:00".toList ∧
      (_expand_recurrence_run_times ⟨2026, 2, 23, 13, 0, 0, 0, some 0⟩
          (some "FREQ=HOURLY;UNTIL=2026-02-23T15:00:00+00:00".toList)).length
        = 24 :=
  ⟨by decide, by decide,
    (expand_recurrence_ignores_until ⟨2026, 2, 23, 13, 0, 0, 0, some 0⟩
      "FREQ=HOURLY;UNTIL=2026-02-23T15:00:00+00:00".toList
      "2026-02-23T15:00:00+00:00".toList (by decide) (by decide)).2⟩

/- ------------------------------------------------------------------
app/services/reminder_dispatcher.py
------------------------------------------------------------------ -/

/-- `compute_next_run_at(current_run_at, recurrence_rule)`.  The source
branches only on `FREQ` values DAILY, WEEKLY, MONTHLY and ends with
`return None`: there is no HOURLY branch and no `UNTIL` handling. -/
def compute_next_run_at (current_run_at : PyDateTime)
    (recurrence_rule : Option (List Char)) : Option PyDateTime :=
  match recurrence_rule with
  | none => none
  | some r =>
    if r = [] then none
    else
      match dictGet (parseRuleParts r) "FREQ".toList with
      | none => none
      | some freq =>
        if freq = [] then none
        else
          if freq = "DAILY".toList then
            some (addTimedeltaUs current_run_at
              (ruleInterval (parseRuleParts r) * usPerDay))
          else if freq = "WEEKLY".toList then
            some (addTimedeltaUs current_run_at
              (ruleInterval (parseRuleParts r) * 7 * usPerDay))
          else if freq = "MONTHLY".toList then
            some (_add_months current_run_at (ruleInterval (parseRuleParts r)))
          else none

/-- One row returned by `list_due_pending`. -/
structure DueReminder where
  id : Int
  chat_id : Int
  text : List Char
  run_at : PyDateTime
  recurrence_rule : Option (List Char)
deriving DecidableEq, Repr

/-- The user-visible text handed to `bot.send_message`:
`f"Напоминание: {unwrap_internal_text(item.text)}"`. -/
def dispatchMessage (item : DueReminder) : List Char :=
  "Напоминание: ".toList ++ unwrap_internal_text item.text

/-- The delivery loop of `dispatch_due_with_repository`: per item, if the
send succeeds (`deliverOk`), record the sent message and either collect
the id for the one batched `mark_done` (no next run time) or record a
`reschedule` call; a send failure is caught and produces nothing for that
item.  Results are in processing order. -/
def dispatchLoop (deliverOk : DueReminder → Bool) :
    List DueReminder →
      List (Int × List Char) × List Int × List (Int × PyDateTime)
  | [] => ([], [], [])
  | item :: rest =>
    let tail := dispatchLoop deliverOk rest
    if deliverOk item then
      match compute_next_run_at item.run_at item.recurrence_rule with
      | none =>
        ((item.chat_id, dispatchMessage item) :: tail.1,
          item.id :: tail.2.1, tail.2.2)
      | some next =>
        ((item.chat_id, dispatchMessage item) :: tail.1,
          tail.2.1, (item.id, next) :: tail.2.2)
    else tail

/-- The observable effects of one `dispatch_due_with_repository` tick. -/
structure DispatchResult where
  sent : List (Int × List Char)
  sent_once_ids : List Int
  reschedule_calls : List (Int × PyDateTime)
  mark_done_batches : List (List Int)
  returned : Nat
deriving DecidableEq, Repr

/-- `dispatch_due_with_repository` over an already-fetched batch of due
items, with the messaging collaborator abstracted by `deliverOk`:
run the loop, then issue `mark_done(sent_once_ids)` exactly once, only if
the collected list is nonempty. -/
def dispatch_due_with_repository (deliverOk : DueReminder → Bool)
    (due_items : List DueReminder) : DispatchResult :=
  if due_items = [] then ⟨[], [], [], [], 0⟩
  else
    let L := dispatchLoop deliverOk due_items
    { sent := L.1
      sent_once_ids := L.2.1
      reschedule_calls := L.2.2
      mark_done_batches := if L.2.1 = [] then [] else [L.2.1]
      returned := L.2.1.length + L.2.2.length }

/-- Items whose send succeeded and whose next run time is `None`
(collected for the batched `mark_done`). -/
def doneFilter (deliverOk : DueReminder → Bool) (i : DueReminder) : Bool :=
  deliverOk i && (compute_next_run_at i.run_at i.recurrence_rule).isNone

/-- Items whose send succeeded and that get rescheduled. -/
def reschedFilter (deliverOk : DueReminder → Bool) (i : DueReminder) : Bool :=
  deliverOk i && (compute_next_run_at i.run_at i.recurrence_rule).isSome

/-- Characterization of the delivery loop's three result lists. -/
lemma dispatchLoop_eq (deliverOk : DueReminder → Bool) :
    ∀ items : List DueReminder,
      (dispatchLoop deliverOk items).1
          = (items.filter deliverOk).map
              (fun i => (i.chat_id, dispatchMessage i)) ∧
        (dispatchLoop deliverOk items).2.1
          = (items.filter (doneFilter deliverOk)).map DueReminder.id ∧
        (dispatchLoop deliverOk items).2.2.map Prod.fst
          = (items.filter (reschedFilter deliverOk)).map DueReminder.id := by
  intro items
  induction items with
  | nil => exact ⟨rfl, rfl, rfl⟩
  | cons item rest ih =>
    obtain ⟨ih1, ih2, ih3⟩ := ih
    by_cases hd : deliverOk item
    · cases hnext : compute_next_run_at item.run_at item.recurrence_rule with
      | none =>
        refine ⟨?_, ?_, ?_⟩ <;>
          simp [dispatchLoop, hd, hnext, doneFilter, reschedFilter,
            List.filter_cons, ih1, ih2, ih3]
      | some next =>
        refine ⟨?_, ?_, ?_⟩ <;>
          simp [dispatchLoop, hd, hnext, doneFilter, reschedFilter,
            List.filter_cons, ih1, ih2, ih3]
    · refine ⟨?_, ?_, ?_⟩ <;>
        simp [dispatchLoop, hd, doneFilter, reschedFilter,
          List.filter_cons, ih1, ih2, ih3]

/-- C4: in a dispatcher tick over a batch of due items (with distinct
ids), a per-item delivery failure is isolated: the failed item is neither
in the batched mark-done call nor rescheduled (it stays pending), every
item whose delivery succeeds is still delivered regardless of other
failures, every delivered non-recurring item is in the single batched
mark-done call, and at most one mark-done call is issued (after the
loop). -/
theorem dispatch_failure_isolated (items : List DueReminder)
    (deliverOk : DueReminder → Bool)
    (hids : (items.map DueReminder.id).Nodup) :
    (∀ item ∈ items, deliverOk item = false →
      (∀ b ∈ (dispatch_due_with_repository deliverOk items).mark_done_batches,
          item.id ∉ b) ∧
      ∀ c ∈ (dispatch_due_with_repository deliverOk items).reschedule_calls,
          c.1 ≠ item.id) ∧
    (∀ item ∈ items, deliverOk item = true →
      (item.chat_id, dispatchMessage item)
        ∈ (dispatch_due_with_repository deliverOk items).sent) ∧
    (∀ item ∈ items, deliverOk item = true → item.recurrence_rule = none →
      ∃ b, (dispatch_due_with_repository deliverOk items).mark_done_batches
          = [b] ∧ item.id ∈ b) ∧
    (dispatch_due_with_repository deliverOk items).mark_done_batches.length
      ≤ 1 := by
  by_cases hempty : items = []
  · subst hempty
    refine ⟨?_, ?_, ?_, ?_⟩ <;> simp [dispatch_due_with_repository]
  · have hinj := List.inj_on_of_nodup_map hids
    obtain ⟨hsent, hdone, hresch⟩ := dispatchLoop_eq deliverOk items
    simp only [dispatch_due_with_repository, if_neg hempty]
    refine ⟨?_, ?_, ?_, ?_⟩
    · intro item hmem hfail
      refine ⟨?_, ?_⟩
      · intro b hb hid
        have hbeq : b = (dispatchLoop deliverOk items).2.1 := by
          by_cases hnil : (dispatchLoop deliverOk items).2.1 = [] <;>
            simp [hnil] at hb
          exact hb
        rw [hbeq, hdone] at hid
        obtain ⟨j, hj, hjid⟩ := List.mem_map.mp hid
        have hjmem := List.mem_of_mem_filter hj
        have hjdone := List.of_mem_filter hj
        have heq : j = item := hinj hjmem hmem hjid
        subst heq
        simp [doneFilter, hfail] at hjdone
      · intro c hc hcid
        have hfst : c.1 ∈ (dispatchLoop deliverOk items).2.2.map Prod.fst :=
          List.mem_map.mpr ⟨c, hc, rfl⟩
        rw [hresch] at hfst
        obtain ⟨j, hj, hjid⟩ := List.mem_map.mp hfst
        have hjmem := List.mem_of_mem_filter hj
        have hjre := List.of_mem_filter hj
        have heq : j = item := hinj hjmem hmem (by rw [hjid, hcid])
        subst heq
        simp [reschedFilter, hfail] at hjre
    · intro item hmem hok
      rw [hsent]
      exact List.mem_map.mpr ⟨item, List.mem_filter.mpr ⟨hmem, hok⟩, rfl⟩
    · intro item hmem hok hrule
      have hdf : doneFilter deliverOk item = true := by
        simp [doneFilter, hok, compute_next_run_at, hrule]
      have hidmem : item.id ∈ (dispatchLoop deliverOk items).2.1 := by
        rw [hdone]
        exact List.mem_map.mpr ⟨item, List.mem_filter.mpr ⟨hmem, hdf⟩, rfl⟩
      have hnonnil : ¬((dispatchLoop deliverOk items).2.1 = []) := by
        intro h; rw [h] at hidmem; exact absurd hidmem (List.not_mem_nil _)
      exact ⟨(dispatchLoop deliverOk items).2.1, by simp [hnonnil], hidmem⟩
    · by_cases hnil : (dispatchLoop deliverOk items).2.1 = [] <;> simp [hnil]

/-- Witness for C4: one deliverable item and one item whose delivery
fails: only the first is marked done, the second produces no mark-done
entry and no reschedule. -/
theorem dispatch_failure_isolated_witness :
    (([⟨1, 1, "a".toList, ⟨2026, 2, 22, 10, 40, 0, 0, some 0⟩, none⟩,
       ⟨2, 2, "b".toList, ⟨2026, 2, 22, 10, 40, 0, 0, some 0⟩, none⟩]
        : List DueReminder).map DueReminder.id).Nodup ∧
    (∀ b ∈ (dispatch_due_with_repository (fun i => i.chat_id ≠ 2)
        [⟨1, 1, "a".toList, ⟨2026, 2, 22, 10, 40, 0, 0, some 0⟩, none⟩,
         ⟨2, 2, "b".toList, ⟨2026, 2, 22, 10, 40, 0, 0, some 0⟩, none⟩])
        |>.mark_done_batches,
      (2 : Int) ∉ b) := by
  have hn : (([⟨1, 1, "a".toList, ⟨2026, 2, 22, 10, 40, 0, 0, some 0⟩, none⟩,
       ⟨2, 2, "b".toList, ⟨2026, 2, 22, 10, 40, 0, 0, some 0⟩, none⟩]
        : List DueReminder).map DueReminder.id).Nodup := by decide
  refine ⟨hn, ?_⟩
  have h := (dispatch_failure_isolated
    [⟨1, 1, "a".toList, ⟨2026, 2, 22, 10, 40, 0, 0, some 0⟩, none⟩,
     ⟨2, 2, "b".toList, ⟨2026, 2, 22, 10, 40, 0, 0, some 0⟩, none⟩]
    (fun i => i.chat_id ≠ 2) hn).1
    ⟨2, 2, "b".toList, ⟨2026, 2, 22, 10, 40, 0, 0, some 0⟩, none⟩
    (by simp) (by decide)
  exact h.1

/-- C3 failing input: the dispatcher's single-step advance has no HOURLY
branch and never reads `UNTIL`, so a due HOURLY occurrence (inside its
bound, where the repo's own test `test_compute_next_run_at_hourly_within_until`
expects 2026-02-23T11:00Z) gets `None` and is finalized done instead of
being rescheduled. -/
theorem compute_next_run_at_hourly_bug :
    compute_next_run_at ⟨2026, 2, 23, 10, 0, 0, 0, some 0⟩
        (some "FREQ=HOURLY;UNTIL=2026-02-23T12:00:00+00:00".toList) = none ∧
      dispatch_due_with_repository (fun _ => true)
          [⟨5, 7, "hourly".toList, ⟨2026, 2, 23, 10, 0, 0, 0, some 0⟩,
            some "FREQ=HOURLY;UNTIL=2026-02-23T12:00:00+00:00".toList⟩]
        = ⟨[(7, "Напоминание: hourly".toList)], [5], [], [[5]], 1⟩ := by
  constructor
  · decide
  · decide

/- ------------------------------------------------------------------
app/schemas/commands.py: day-reference resolution.
------------------------------------------------------------------ -/

/-- `DayReference` enum. -/
inductive DayReference where
  | today
  | tomorrow
  | day_after_tomorrow
  | weekday
  | specific_date
deriving DecidableEq, Repr

/-- A validated `ReminderInput` instance. -/
structure ReminderInput where
  text : List Char
  run_at : Option PyDateTime := none
  recurrence_rule : Option (List Char) := none
  day_reference : Option DayReference := none
  weekday : Option Nat := none
  time_value : Option (List Char) := none
  date_value : Option PyDate := none
  explicit_time_provided : Bool := false
deriving DecidableEq, Repr

/-- `datetime.weekday()`: Monday = 0 (1970-01-01 was a Thursday). -/
def pyWeekdayOf (dt : PyDateTime) : Int :=
  (daysFromCivil dt.year dt.month dt.day + 3) % 7

/-- `next_weekday(base_dt, weekday)`: the next occurrence of the named
weekday strictly after today (a full week ahead on the same weekday). -/
def next_weekday (base_dt : PyDateTime) (weekday : Nat) : PyDateTime :=
  let days_ahead : Int := ((weekday : Int) - pyWeekdayOf base_dt) % 7
  let days_ahead : Int := if days_ahead = 0 then 7 else days_ahead
  addTimedeltaUs base_dt (days_ahead * usPerDay)

/-- `str.replace(old, new)` for single characters. -/
def pyReplace (s : List Char) (old new : Char) : List Char :=
  s.map (fun c => if c = old then new else c)

/-- `_parse_time_text(value)`: normalize `.` and `-` separators to `:`,
require exactly two `int()`-parsable parts encoding a valid 24-hour
time. -/
def _parse_time_text (value : List Char) : Option (Nat × Nat) :=
  let raw := pyReplace (pyReplace (pyStrip value) '.' ':') '-' ':'
  match pySplit ':' raw with
  | [p1, p2] =>
    match pyInt p1, pyInt p2 with
    | some hours, some minutes =>
      if 0 ≤ hours ∧ hours ≤ 23 ∧ 0 ≤ minutes ∧ minutes ≤ 59 then
        some (hours.toNat, minutes.toNat)
      else none
    | _, _ => none
  | _ => none

/-- The tail of `resolve_default_run_at` shared by the day-date branches:
default time 08:00, overridden by a parsable explicit time, combined with
the day date in `now`'s timezone (UTC when `now` is naive). -/
def combineDefaultTime (reminder : ReminderInput) (now : PyDateTime)
    (day_date : PyDate) : PyDateTime :=
  let default_time : Nat × Nat :=
    if reminder.explicit_time_provided then
      match reminder.time_value with
      | some tv =>
        if tv = [] then (8, 0)
        else
          match _parse_time_text tv with
          | some p => p
          | none => (8, 0)
      | none => (8, 0)
    else (8, 0)
  ⟨day_date.year, day_date.month, day_date.day, default_time.1,
    default_time.2, 0, 0, some (now.tzOffsetMinutes.getD 0)⟩

/-- `resolve_default_run_at(reminder, now)`; `.error` models the raised
`ValueError`.  Note the `specific_date` branch raises whenever the date is
not strictly after today, with no test of `explicit_time_provided`, even
though its error text says "when time is omitted". -/
def resolve_default_run_at (reminder : ReminderInput) (now : PyDateTime) :
    Except (List Char) PyDateTime :=
  match reminder.run_at with
  | some ra =>
    .ok (if ra.tzOffsetMinutes = none then { ra with tzOffsetMinutes := some 0 }
         else ra)
  | none =>
    match reminder.day_reference with
    | none => .error "day_reference must be provided when run_at is missing".toList
    | some DayReference.today =>
      let rounded := { now with minute := 0, second := 0, microsecond := 0 }
      .ok (if pyDtLt rounded now then addTimedeltaUs rounded usPerHour else rounded)
    | some DayReference.tomorrow =>
      .ok (combineDefaultTime reminder now (addTimedeltaUs now usPerDay).dateOf)
    | some DayReference.day_after_tomorrow =>
      .ok (combineDefaultTime reminder now
        (addTimedeltaUs now (2 * usPerDay)).dateOf)
    | some DayReference.weekday =>
      .ok (combineDefaultTime reminder now
        (next_weekday now (reminder.weekday.getD 0)).dateOf)
    | some DayReference.specific_date =>
      let day_date := reminder.date_value.getD now.dateOf
      if pyDateLe day_date now.dateOf then
        .error "specific_date must be in the future when time is omitted".toList
      else .ok (combineDefaultTime reminder now day_date)

/-- C8 failing input: resolving `specific_date` equal to today's date with
an explicit time "20:00" still raises, because the strictly-in-the-future
check does not consult `explicit_time_provided`; the same date one day
later resolves to 20:00 of that day. -/
theorem resolve_specific_date_explicit_time_bug :
    resolve_default_run_at
        { text := "t".toList
          day_reference := some DayReference.specific_date
          date_value := some ⟨2026, 2, 21⟩
          time_value := some "20:00".toList
          explicit_time_provided := true }
        ⟨2026, 2, 21, 10, 15, 0, 0, some 0⟩
      = Except.error
          "specific_date must be in the future when time is omitted".toList ∧
    resolve_default_run_at
        { text := "t".toList
          day_reference := some DayReference.specific_date
          date_value := some ⟨2026, 2, 22⟩
          time_value := some "20:00".toList
          explicit_time_provided := true }
        ⟨2026, 2, 21, 10, 15, 0, 0, some 0⟩
      = Except.ok ⟨2026, 2, 22, 20, 0, 0, 0, some 0⟩ := by
  exact ⟨rfl, rfl⟩

/- ------------------------------------------------------------------
app/schemas/commands.py: pydantic models for list/delete commands, and
app/services/reminder_service.py: delete_from_command.
Pydantic objects are modelled dynamically: a validated instance carries
exactly its declared fields as attributes (extra input keys are ignored,
the default `extra="ignore"`), and attribute access on a missing name is
an `AttributeError`.
------------------------------------------------------------------ -/

/-- A Python value appearing in command payloads. -/
inductive PyVal where
  | none
  | bool (b : Bool)
  | int (n : Int)
  | str (s : List Char)
  | dt (d : PyDateTime)
deriving DecidableEq, Repr

/-- An attribute map / JSON object. -/
def PyObj := List (List Char × PyVal)

instance : DecidableEq PyObj := by
  unfold PyObj
  infer_instance

/-- Key lookup. -/
def pyObjGet (o : PyObj) (k : List Char) : Option PyVal :=
  (o.find? (fun p => p.1 == k)).map Prod.snd

/-- Python attribute access: `AttributeError` when the object has no such
attribute. -/
def pygetattr (o : PyObj) (name : List Char) : Except (List Char) PyVal :=
  match pyObjGet o name with
  | some v => .ok v
  | Option.none => .error ("AttributeError: ".toList ++ name)

/-- Python truthiness of the embedded values. -/
def pyTruthy : PyVal → Bool
  | .none => false
  | .bool b => b
  | .int n => n ≠ 0
  | .str s => s ≠ []
  | .dt _ => true

/-- A required field that must equal a fixed literal (the pydantic
`command` discriminator). -/
def requireLiteral (payload : PyObj) (k : List Char) (v : PyVal) :
    Except (List Char) Unit :=
  match pyObjGet payload k with
  | some w => if w = v then .ok () else .error ("invalid ".toList ++ k)
  | Option.none => .error ("missing ".toList ++ k)

/-- A string field constrained to a `Literal[...]` set, with a default for
a missing key. -/
def literalField (payload : PyObj) (k : List Char)
    (allowed : List (List Char)) (dflt : List Char) :
    Except (List Char) (List Char) :=
  match pyObjGet payload k with
  | Option.none => .ok dflt
  | some (.str s) =>
    if allowed.contains s then .ok s else .error ("invalid ".toList ++ k)
  | some _ => .error ("invalid ".toList ++ k)

/-- An optional string field constrained to a `Literal[...] | None`. -/
def optLiteralField (payload : PyObj) (k : List Char)
    (allowed : List (List Char)) :
    Except (List Char) (Option (List Char)) :=
  match pyObjGet payload k with
  | Option.none => .ok Option.none
  | some .none => .ok Option.none
  | some (.str s) =>
    if allowed.contains s then .ok (some s) else .error ("invalid ".toList ++ k)
  | some _ => .error ("invalid ".toList ++ k)

/-- An optional free string field (`str | None`). -/
def optStrField (payload : PyObj) (k : List Char) :
    Except (List Char) (Option (List Char)) :=
  match pyObjGet payload k with
  | Option.none => .ok Option.none
  | some .none => .ok Option.none
  | some (.str s) => .ok (some s)
  | some _ => .error ("invalid ".toList ++ k)

/-- An optional datetime field (`datetime | None`). -/
def optDtField (payload : PyObj) (k : List Char) :
    Except (List Char) (Option PyDateTime) :=
  match pyObjGet payload k with
  | Option.none => .ok Option.none
  | some .none => .ok Option.none
  | some (.dt d) => .ok (some d)
  | some _ => .error ("invalid ".toList ++ k)

/-- An optional int field with bounds (`int | None`, `ge`/`le`). -/
def optIntField (payload : PyObj) (k : List Char) (lo hi : Int) :
    Except (List Char) (Option Int) :=
  match pyObjGet payload k with
  | Option.none => .ok Option.none
  | some .none => .ok Option.none
  | some (.int n) =>
    if lo ≤ n ∧ n ≤ hi then .ok (some n) else .error ("invalid ".toList ++ k)
  | some _ => .error ("invalid ".toList ++ k)

/-- The fields declared on `ListRemindersCommand` in the source.  Note the
`status` literal set is `{"pending", "done", "canceled"}` — it does NOT
include `"deleted"`. -/
structure ListRemindersCommand where
  mode : List Char
  status : Option (List Char)
  search_text : Option (List Char)
  from_dt : Option PyDateTime
  to_dt : Option PyDateTime
deriving DecidableEq, Repr

/-- Validation of a `list_reminders` payload against
`ListRemindersCommand`. -/
def validateListRemindersCommand (payload : PyObj) :
    Except (List Char) ListRemindersCommand := do
  requireLiteral payload "command".toList (.str "list_reminders".toList)
  let mode ← literalField payload "mode".toList
    ["all".toList, "today".toList, "status".toList, "search".toList,
      "range".toList] "all".toList
  let status ← optLiteralField payload "status".toList
    ["pending".toList, "done".toList, "canceled".toList]
  let search_text ← optStrField payload "search_text".toList
  let from_dt ← optDtField payload "from_dt".toList
  let to_dt ← optDtField payload "to_dt".toList
  pure ⟨mode, status, search_text, from_dt, to_dt⟩

/-- C9 failing input: the payload
`{"command": "list_reminders", "mode": "status", "status": "deleted"}`
fails schema validation (the `status` literal set is
pending/done/canceled), while the legacy value `"canceled"` is accepted —
the repo's own test `test_list_status_accepts_deleted` expects `"deleted"`
to validate. -/
theorem list_status_deleted_rejected :
    validateListRemindersCommand
        [("command".toList, .str "list_reminders".toList),
         ("mode".toList, .str "status".toList),
         ("status".toList, .str "deleted".toList)]
      = Except.error "invalid status".toList ∧
    validateListRemindersCommand
        [("command".toList, .str "list_reminders".toList),
         ("mode".toList, .str "status".toList),
         ("status".toList, .str "canceled".toList)]
      = Except.ok ⟨"status".toList, some "canceled".toList, Option.none,
          Option.none, Option.none⟩ := by
  exact ⟨rfl, rfl⟩

/-- The fields declared on `DeleteRemindersCommand` in the source.  Note
there is NO `confirm_delete_all` and NO `reminder_id` field. -/
structure DeleteRemindersCommand where
  mode : List Char
  last_n : Option Int
  status : Option (List Char)
  search_text : Option (List Char)
  from_dt : Option PyDateTime
  to_dt : Option PyDateTime
deriving DecidableEq, Repr

/-- The attribute map of a validated `DeleteRemindersCommand` instance:
exactly the declared fields (extra payload keys were ignored). -/
def DeleteRemindersCommand.attrs (c : DeleteRemindersCommand) : PyObj :=
  [("mode".toList, .str c.mode),
   ("last_n".toList, match c.last_n with | some n => .int n | Option.none => .none),
   ("status".toList, match c.status with | some s => .str s | Option.none => .none),
   ("search_text".toList,
     match c.search_text with | some s => .str s | Option.none => .none),
   ("from_dt".toList, match c.from_dt with | some d => .dt d | Option.none => .none),
   ("to_dt".toList, match c.to_dt with | some d => .dt d | Option.none => .none)]

/-- Validation of a `delete_reminders` payload against
`DeleteRemindersCommand`, including the `mode=last_n requires last_n`
model validator. -/
def validateDeleteRemindersCommand (payload : PyObj) :
    Except (List Char) DeleteRemindersCommand := do
  requireLiteral payload "command".toList (.str "delete_reminders".toList)
  let mode ← literalField payload "mode".toList
    ["filter".toList, "last_n".toList] "filter".toList
  let last_n ← optIntField payload "last_n".toList 1 100
  let status ← optLiteralField payload "status".toList
    ["pending".toList, "done".toList, "canceled".toList]
  let search_text ← optStrField payload "search_text".toList
  let from_dt ← optDtField payload "from_dt".toList
  let to_dt ← optDtField payload "to_dt".toList
  if mode = "last_n".toList ∧ last_n = Option.none then
    .error "last_n is required when mode=last_n".toList
  else
    pure ⟨mode, last_n, status, search_text, from_dt, to_dt⟩

/-- A stored reminder row as the delete flow sees it. -/
structure StoredReminder where
  id : Int
  chat_id : Int
  text : List Char
  run_at : PyDateTime
  status : List Char
  recurrence_rule : Option (List Char)
deriving DecidableEq, Repr

/-- The arguments `delete_from_command` hands to the repository selection
(the `SelectionFilter` plus `last_n`). -/
structure SelectionArgs where
  chat_id : Int
  reminder_id : PyVal
  status : PyVal
  search_text : PyVal
  from_dt : PyVal
  to_dt : PyVal
  last_n : PyVal
deriving Repr

/-- `ReminderService.delete_from_command` over a validated command's
attribute map, with the repository abstracted by `selectItems` /
`deleteByIds`.  Every attribute the source reads is accessed through
`pygetattr`, so reads of fields the schema does not declare surface as
`AttributeError`, exactly as in Python. -/
def delete_from_command (selectItems : SelectionArgs → List StoredReminder)
    (deleteByIds : List Int → Int) (chat_id : Int) (command : PyObj) :
    Except (List Char) (Int × List StoredReminder) := do
  let mode ← pygetattr command "mode".toList
  let isNoOp ← (do
    if mode = PyVal.str "filter".toList then
      let confirm ← pygetattr command "confirm_delete_all".toList
      if pyTruthy confirm then pure false
      else
        let rid ← pygetattr command "reminder_id".toList
        if rid ≠ PyVal.none then pure false
        else
          let st ← pygetattr command "status".toList
          if st ≠ PyVal.none then pure false
          else
            let stx ← pygetattr command "search_text".toList
            if stx ≠ PyVal.none then pure false
            else
              let fd ← pygetattr command "from_dt".toList
              if fd ≠ PyVal.none then pure false
              else
                let td ← pygetattr command "to_dt".toList
                pure (td = PyVal.none)
    else pure false)
  if isNoOp then pure (0, [])
  else
    let rid ← pygetattr command "reminder_id".toList
    let st ← pygetattr command "status".toList
    let stx ← pygetattr command "search_text".toList
    let fd ← pygetattr command "from_dt".toList
    let td ← pygetattr command "to_dt".toList
    let lastn ←
      if mode = PyVal.str "last_n".toList then
        pygetattr command "last_n".toList
      else pure PyVal.none
    let selected := selectItems ⟨chat_id, rid, st, stx, fd, td, lastn⟩
    pure (deleteByIds (selected.map StoredReminder.id), selected)

/-- C2 failing input: a zero-filter `{"command": "delete_reminders",
"mode": "filter"}` payload validates (to an instance without a
`confirm_delete_all` attribute, since the schema declares none), and
`delete_from_command` then raises `AttributeError: confirm_delete_all`
instead of performing the claimed safe no-op; the variant payload with
`"confirm_delete_all": true` validates to the same instance (extra keys
ignored) and raises identically instead of deleting all. -/
theorem delete_from_command_attribute_error
    (selectItems : SelectionArgs → List StoredReminder)
    (deleteByIds : List Int → Int) :
    validateDeleteRemindersCommand
        [("command".toList, .str "delete_reminders".toList),
         ("mode".toList, .str "filter".toList)]
      = Except.ok ⟨"filter".toList, Option.none, Option.none, Option.none,
          Option.none, Option.none⟩ ∧
    validateDeleteRemindersCommand
        [("command".toList, .str "delete_reminders".toList),
         ("mode".toList, .str "filter".toList),
         ("confirm_delete_all".toList, .bool true)]
      = Except.ok ⟨"filter".toList, Option.none, Option.none, Option.none,
          Option.none, Option.none⟩ ∧
    delete_from_command selectItems deleteByIds 1
        (DeleteRemindersCommand.attrs
          ⟨"filter".toList, Option.none, Option.none, Option.none,
            Option.none, Option.none⟩)
      = Except.error "AttributeError: confirm_delete_all".toList := by
  exact ⟨rfl, rfl, rfl⟩

/- ------------------------------------------------------------------
app/services/reminder_service.py: create_from_command payload building.
The configured IANA timezone value is not part of the captured settings
module, so the local timezone is a fixed UTC offset parameter
`localOffset` (in minutes) here.
------------------------------------------------------------------ -/

/-- One entry of the `create_many` payload. -/
structure PayloadItem where
  chat_id : Int
  text : List Char
  run_at : PyDateTime
  recurrence_rule : Option (List Char)
  series_id : Option (List Char)
deriving DecidableEq, Repr

/-- `series_id`: a fresh uuid string when the reminder carries a truthy
recurrence rule, else `None`. -/
def createSeriesId (r : ReminderInput) (fresh_sid : List Char) :
    Option (List Char) :=
  match r.recurrence_rule with
  | some rr => if rr = [] then Option.none else some fresh_sid
  | Option.none => Option.none

/-- The `run_at` normalization of `create_from_command`: resolve, treat a
naive result as local time, convert to UTC. -/
def createRunAtUtc (localOffset : Int) (r : ReminderInput)
    (now : PyDateTime) : Except (List Char) PyDateTime := do
  let run_at ← resolve_default_run_at r now
  let run_at_local :=
    if run_at.tzOffsetMinutes = Option.none then
      { run_at with tzOffsetMinutes := some localOffset }
    else run_at
  pure (astimezoneTo run_at_local 0)

/-- The payload entries produced for one scheduled run `s`: a hidden
pre-notification one hour earlier when the run's local date is at least
`tomorrow_date`, then the visible occurrence; both non-recurring and
linked to the same series. -/
def occurrenceBlock (localOffset chat_id : Int) (r : ReminderInput)
    (tomorrow_date : PyDate) (series_id : Option (List Char))
    (s : PyDateTime) : List PayloadItem :=
  (if pyDateLe tomorrow_date (astimezoneTo s localOffset).dateOf then
    [⟨chat_id, build_pre_reminder_text r.text, addTimedeltaUs s (-usPerHour),
      Option.none, series_id⟩]
  else []) ++ [⟨chat_id, r.text, s, Option.none, series_id⟩]

/-- The `create_from_command` payload for one reminder spec: resolve and
normalize the trigger time, expand the recurrence, and emit the per-run
blocks in order, with `tomorrow_date = (now + timedelta(days=1)).date()`. -/
def create_from_command_payload (localOffset chat_id : Int)
    (r : ReminderInput) (now : PyDateTime) (fresh_sid : List Char) :
    Except (List Char) (List PayloadItem) := do
  let run_at_utc ← createRunAtUtc localOffset r now
  pure ((_expand_recurrence_run_times run_at_utc r.recurrence_rule).flatMap
    (occurrenceBlock localOffset chat_id r
      (addTimedeltaUs now usPerDay).dateOf (createSeriesId r fresh_sid)))

/-- Adding one day to a datetime with in-range time fields advances its
calendar date to the next civil day. -/
lemma dateOf_add_one_day (now : PyDateTime) (hWF : now.WF) :
    (addTimedeltaUs now usPerDay).dateOf = nextDate now.dateOf := by
  obtain ⟨hh, hm, hs, hus⟩ := hWF
  have key : ∀ D T : Int, 0 ≤ T → T < 86400000000 →
      (D * 86400000000 + T + 86400000000) / 86400000000 = D + 1 := by
    intro D T h0 h1
    have h2 : D * 86400000000 + T + 86400000000
        = T + 86400000000 * (D + 1) := by ring
    rw [h2, Int.add_mul_ediv_left T (D + 1) (by norm_num),
      Int.ediv_eq_zero_of_lt h0 h1]
    ring
  have hdays : (now.naiveUs + usPerDay) / usPerDay
      = daysFromCivil now.year now.month now.day + 1 := by
    have hform : now.naiveUs + usPerDay
        = daysFromCivil now.year now.month now.day * 86400000000
          + ((now.hour : Int) * 3600000000 + (now.minute : Int) * 60000000
            + (now.second : Int) * 1000000 + (now.microsecond : Int))
          + 86400000000 := by
      simp only [PyDateTime.naiveUs, usPerDay, usPerHour, usPerMinute]
      ring
    have hT0 : (0 : Int) ≤ (now.hour : Int) * 3600000000
        + (now.minute : Int) * 60000000 + (now.second : Int) * 1000000
        + (now.microsecond : Int) := by positivity
    have hT1 : (now.hour : Int) * 3600000000 + (now.minute : Int) * 60000000
        + (now.second : Int) * 1000000 + (now.microsecond : Int)
        < 86400000000 := by omega
    rw [hform]
    simp only [usPerDay]
    exact key _ _ hT0 hT1
  simp only [addTimedeltaUs, pyDateTimeFromNaiveUs, PyDateTime.dateOf,
    nextDate, hdays]

/-- The marker makes a text internal (shared helper). -/
lemma is_internal_build (t : List Char) :
    is_internal_pre_reminder (build_pre_reminder_text t) = true := by
  simp [is_internal_pre_reminder, build_pre_reminder_text, List.take_left]

/-- `filter` distributes over `flatMap`. -/
lemma filter_flatMap {α β : Type} (l : List α) (f : α → List β)
    (p : β → Bool) :
    (l.flatMap f).filter p = l.flatMap (fun a => (f a).filter p) := by
  induction l with
  | nil => rfl
  | cons a l ih => simp [List.flatMap_cons, List.filter_append, ih]

/-- Counting singleton-or-empty blocks counts the qualifying elements. -/
lemma count_pre_blocks (runs : List PyDateTime) (q : PyDateTime → Bool)
    (g : PyDateTime → PayloadItem) :
    (runs.flatMap (fun s => if q s then [g s] else [])).length
      = (runs.filter q).length := by
  induction runs with
  | nil => rfl
  | cons s l ih =>
    by_cases hq : q s <;>
      simp [List.flatMap_cons, List.filter_cons, hq, ih]

/-- C6: for every occurrence scheduled by `create_from_command` whose
local calendar date is at least the day after `now`'s local date, the
payload contains exactly one hidden pre-notification directly before it —
one hour earlier, marker-prefixed copy of the same text, same series
link, itself non-recurring — and a same-local-day occurrence gets none;
the number of hidden entries equals the number of qualifying runs. -/
theorem create_pre_notification (localOffset chat_id : Int)
    (r : ReminderInput) (now : PyDateTime) (fresh_sid : List Char)
    (payload : List PayloadItem) (run_at_utc : PyDateTime)
    (hWF : now.WF)
    (hoff : now.tzOffsetMinutes = some localOffset)
    (htext : is_internal_pre_reminder r.text = false)
    (hrun : createRunAtUtc localOffset r now = Except.ok run_at_utc)
    (hok : create_from_command_payload localOffset chat_id r now fresh_sid
      = Except.ok payload) :
    payload
        = (_expand_recurrence_run_times run_at_utc r.recurrence_rule).flatMap
            (occurrenceBlock localOffset chat_id r (nextDate now.dateOf)
              (createSeriesId r fresh_sid)) ∧
      (∀ s ∈ _expand_recurrence_run_times run_at_utc r.recurrence_rule,
        (pyDateLe (nextDate now.dateOf) (astimezoneTo s localOffset).dateOf
            = true →
          occurrenceBlock localOffset chat_id r (nextDate now.dateOf)
              (createSeriesId r fresh_sid) s
            = [⟨chat_id, build_pre_reminder_text r.text,
                addTimedeltaUs s (-usPerHour), Option.none,
                createSeriesId r fresh_sid⟩,
               ⟨chat_id, r.text, s, Option.none,
                createSeriesId r fresh_sid⟩]) ∧
        (pyDateLe (nextDate now.dateOf) (astimezoneTo s localOffset).dateOf
            = false →
          occurrenceBlock localOffset chat_id r (nextDate now.dateOf)
              (createSeriesId r fresh_sid) s
            = [⟨chat_id, r.text, s, Option.none,
                createSeriesId r fresh_sid⟩])) ∧
      (payload.filter (fun p => is_internal_pre_reminder p.text)).length
        = ((_expand_recurrence_run_times run_at_utc
              r.recurrence_rule).filter
            (fun s => pyDateLe (nextDate now.dateOf)
              (astimezoneTo s localOffset).dateOf)).length := by
  have hdate := dateOf_add_one_day now hWF
  have hpayload : payload
      = (_expand_recurrence_run_times run_at_utc r.recurrence_rule).flatMap
          (occurrenceBlock localOffset chat_id r (nextDate now.dateOf)
            (createSeriesId r fresh_sid)) := by
    rw [← hdate]
    unfold create_from_command_payload at hok
    rw [hrun] at hok
    simp only [Except.bind, pure, Except.pure] at hok
    exact (Except.ok.injEq _ _).mp hok |>.symm
  refine ⟨hpayload, ?_, ?_⟩
  · intro s _
    constructor
    · intro hq
      simp [occurrenceBlock, hq]
    · intro hq
      simp [occurrenceBlock, hq]
  · rw [hpayload, filter_flatMap]
    have hblock : ∀ s : PyDateTime,
        (occurrenceBlock localOffset chat_id r (nextDate now.dateOf)
            (createSeriesId r fresh_sid) s).filter
          (fun p => is_internal_pre_reminder p.text)
        = if pyDateLe (nextDate now.dateOf)
              (astimezoneTo s localOffset).dateOf then
            [⟨chat_id, build_pre_reminder_text r.text,
              addTimedeltaUs s (-usPerHour), Option.none,
              createSeriesId r fresh_sid⟩]
          else [] := by
      intro s
      by_cases hq : pyDateLe (nextDate now.dateOf)
          (astimezoneTo s localOffset).dateOf
      · simp [occurrenceBlock, hq, List.filter_append, is_internal_build,
          htext]
      · simp [occurrenceBlock, hq, List.filter_append, htext]
    simp only [hblock]
    exact count_pre_blocks _
      (fun s => pyDateLe (nextDate now.dateOf)
        (astimezoneTo s localOffset).dateOf)
      (fun s => ⟨chat_id, build_pre_reminder_text r.text,
        addTimedeltaUs s (-usPerHour), Option.none,
        createSeriesId r fresh_sid⟩)

/-- Witness for C6: a reminder explicitly at 2026-02-23T09:00Z created at
2026-02-22T10:15 UTC yields one hidden pre-notification (at 08:00Z). -/
theorem create_pre_notification_witness :
    (⟨2026, 2, 22, 10, 15, 0, 0, some 0⟩ : PyDateTime).WF ∧
      ((Except.ok
          [⟨123, build_pre_reminder_text "call".toList,
            ⟨2026, 2, 23, 8, 0, 0, 0, some 0⟩, Option.none, Option.none⟩,
           ⟨123, "call".toList, ⟨2026, 2, 23, 9, 0, 0, 0, some 0⟩,
            Option.none, Option.none⟩]
          : Except (List Char) (List PayloadItem))
        = Except.ok
          ((_expand_recurrence_run_times ⟨2026, 2, 23, 9, 0, 0, 0, some 0⟩
              Option.none).flatMap
            (occurrenceBlock 0 123
              { text := "call".toList
                run_at := some ⟨2026, 2, 23, 9, 0, 0, 0, some 0⟩
                explicit_time_provided := true }
              (nextDate (⟨2026, 2, 22, 10, 15, 0, 0, some 0⟩
                : PyDateTime).dateOf)
              (createSeriesId
                { text := "call".toList
                  run_at := some ⟨2026, 2, 23, 9, 0, 0, 0, some 0⟩
                  explicit_time_provided := true } "sid".toList)))) := by
  constructor
  · exact ⟨by decide, by decide, by decide, by decide⟩
  · have h := (create_pre_notification 0 123
      { text := "call".toList
        run_at := some ⟨2026, 2, 23, 9, 0, 0, 0, some 0⟩
        explicit_time_provided := true }
      ⟨2026, 2, 22, 10, 15, 0, 0, some 0⟩ "sid".toList
      [⟨123, build_pre_reminder_text "call".toList,
        ⟨2026, 2, 23, 8, 0, 0, 0, some 0⟩, Option.none, Option.none⟩,
       ⟨123, "call".toList, ⟨2026, 2, 23, 9, 0, 0, 0, some 0⟩,
        Option.none, Option.none⟩]
      ⟨2026, 2, 23, 9, 0, 0, 0, some 0⟩
      ⟨by decide, by decide, by decide, by decide⟩ rfl (by decide) rfl
      rfl).1
    exact congrArg Except.ok h

/- ------------------------------------------------------------------
app/services/guardrails.py: ChatRateLimiter.
Timestamps are aware datetimes compared and shifted by a fixed
`timedelta`; both operations factor through the absolute instant, so a
timestamp is modelled as its absolute microseconds (an `Int`) and the
window as `window_seconds` in microseconds.
------------------------------------------------------------------ -/

/-- `ChatRateLimiter(max_requests, window_seconds)` configuration
(defaults 5 and 60 s in the source). -/
structure ChatRateLimiter where
  max_requests : Nat
  window : Int
deriving DecidableEq, Repr

/-- The body of `allow` on one chat's deque: evict entries older than
`now - window` from the front (`while queue and queue[0] < threshold:
popleft`), reject if the remaining occupancy reaches the maximum, else
record `now` and accept. -/
def allowStep (lim : ChatRateLimiter) (queue : List Int) (now : Int) :
    Bool × List Int :=
  let threshold := now - lim.window
  let queue := queue.dropWhile (fun e => decide (e < threshold))
  if queue.length ≥ lim.max_requests then (false, queue)
  else (true, queue ++ [now])

/-- `ChatRateLimiter.allow(chat_id, now)` over the per-chat dict
(`setdefault` modelled by a total map defaulting to `[]`). -/
def ChatRateLimiter.allow (lim : ChatRateLimiter) (st : Int → List Int)
    (chat_id : Int) (now : Int) : Bool × (Int → List Int) :=
  let r := allowStep lim (st chat_id) now
  (r.1, fun c => if c = chat_id then r.2 else st c)

/-- Run a sequence of `(chat_id, now)` calls to `allow`, returning the
final per-chat state and the accepted calls in order. -/
def runCalls (lim : ChatRateLimiter) (st : Int → List Int) :
    List (Int × Int) → (Int → List Int) × List (Int × Int)
  | [] => (st, [])
  | (c, t) :: rest =>
    let r := ChatRateLimiter.allow lim st c t
    let tail := runCalls lim r.2 rest
    (tail.1, (if r.1 then [(c, t)] else []) ++ tail.2)

/-- Run calls for a single queue (one chat). -/
def runQueue (lim : ChatRateLimiter) (q : List Int) :
    List Int → List Int × List Int
  | [] => (q, [])
  | t :: ts =>
    let r := allowStep lim q t
    let tail := runQueue lim r.2 ts
    (tail.1, (if r.1 then [t] else []) ++ tail.2)

/-- Membership in the rolling window `[t, t + w]`. -/
def inWindow (w t a : Int) : Bool := decide (t ≤ a) && decide (a ≤ t + w)

/-- Invariant of one chat's limiter state after the last call at time
`b`: `A` is the (sorted) list of accepted timestamps so far, the queue
holds exactly the accepted timestamps still inside the window ending at
`b`, occupancy never exceeds the maximum, and no window of the configured
length contains more than the maximum number of accepted timestamps. -/
def RLInv (lim : ChatRateLimiter) (b : Int) (q A : List Int) : Prop :=
  List.Sorted (· ≤ ·) A ∧ (∀ a ∈ A, a ≤ b) ∧
    q = A.filter (fun a => decide (b - lim.window ≤ a)) ∧
    q.length ≤ lim.max_requests ∧
    ∀ t : Int, (A.filter (inWindow lim.window t)).length ≤ lim.max_requests

/-- Front eviction on a sorted queue is a filter. -/
lemma sorted_dropWhile_filter (c : Int) :
    ∀ l : List Int, List.Sorted (· ≤ ·) l →
      l.dropWhile (fun e => decide (e < c))
        = l.filter (fun e => decide (c ≤ e)) := by
  intro l
  induction l with
  | nil => intro _; rfl
  | cons x xs ih =>
    intro hs
    obtain ⟨hx, hxs⟩ := List.sorted_cons.mp hs
    by_cases hlt : x < c
    · simp only [List.dropWhile_cons, List.filter_cons]
      have h1 : ¬(c ≤ x) := by omega
      simp [hlt, h1, ih hxs]
    · simp only [List.dropWhile_cons, List.filter_cons]
      have h1 : c ≤ x := by omega
      have h2 : xs.filter (fun e => decide (c ≤ e)) = xs :=
        List.filter_eq_self.mpr (fun a ha => by
          have := hx a ha
          simp; omega)
      simp [hlt, h1, h2]

/-- One `allow` call at a time `now` not before the previous call
preserves the limiter invariant, the accepted timestamp (if any) being
appended to the trace. -/
lemma RLInv_step (lim : ChatRateLimiter) (hw : 0 ≤ lim.window)
    (b now : Int) (q A : List Int) (hinv : RLInv lim b q A) (hb : b ≤ now) :
    RLInv lim now (allowStep lim q now).2
      (A ++ if (allowStep lim q now).1 then [now] else []) := by
  obtain ⟨hsorted, hbound, hq, hlen, hwin⟩ := hinv
  have hqsorted : List.Sorted (· ≤ ·) q := by
    rw [hq]
    exact List.Pairwise.filter _ hsorted
  have heq : q.dropWhile (fun e => decide (e < now - lim.window))
      = A.filter (fun a => decide (now - lim.window ≤ a)) := by
    rw [sorted_dropWhile_filter _ q hqsorted, hq, List.filter_filter]
    congr 1
    funext a
    by_cases h : now - lim.window ≤ a
    · have h2 : b - lim.window ≤ a := by omega
      simp [h, h2]
    · simp [h]
  have hlen' : (q.dropWhile (fun e => decide (e < now - lim.window))).length
      ≤ q.length := (List.dropWhile_sublist _).length_le
  by_cases hfull : (q.dropWhile
      (fun e => decide (e < now - lim.window))).length ≥ lim.max_requests
  · have hres : allowStep lim q now
        = (false, q.dropWhile (fun e => decide (e < now - lim.window))) := by
      simp only [allowStep]
      rw [if_pos hfull]
    rw [hres]
    simp only [if_neg (by simp : ¬(false = true)), List.append_nil]
    exact ⟨hsorted, fun a ha => le_trans (hbound a ha) hb, heq,
      le_trans hlen' hlen, hwin⟩
  · have hres : allowStep lim q now
        = (true, q.dropWhile (fun e => decide (e < now - lim.window))
            ++ [now]) := by
      simp only [allowStep]
      rw [if_neg hfull]
    rw [hres]
    show RLInv lim now
      (q.dropWhile (fun e => decide (e < now - lim.window)) ++ [now])
      (A ++ [now])
    have hboundnow : ∀ a ∈ A, a ≤ now := fun a ha =>
      le_trans (hbound a ha) hb
    refine ⟨?_, ?_, ?_, ?_, ?_⟩
    · exact List.pairwise_append.mpr
        ⟨hsorted, List.pairwise_singleton _ _,
          fun a ha y hy => by
            rw [List.mem_singleton] at hy
            subst hy
            exact hboundnow a ha⟩
    · intro a ha
      rcases List.mem_append.mp ha with h | h
      · exact hboundnow a h
      · rw [List.mem_singleton] at h
        omega
    · rw [List.filter_append, heq]
      have : ([now].filter (fun a => decide (now - lim.window ≤ a)))
          = [now] := by
        simp
        omega
      rw [this]
    · have hlt : (q.dropWhile
          (fun e => decide (e < now - lim.window))).length
          < lim.max_requests := by omega
      simp only [List.length_append, List.length_singleton]
      omega
    · intro t
      rw [List.filter_append]
      by_cases hmem : inWindow lim.window t now = true
      · have hsub : (A.filter (inWindow lim.window t)).Sublist
            (A.filter (fun a => decide (now - lim.window ≤ a))) := by
          apply List.monotone_filter_right
          intro a ha
          simp only [inWindow, Bool.and_eq_true, decide_eq_true_eq] at ha hmem ⊢
          omega
        have hcount : (A.filter (inWindow lim.window t)).length
            < lim.max_requests := by
          have h1 := hsub.length_le
          rw [← heq] at h1
          omega
        simp only [List.length_append]
        have : ([now].filter (inWindow lim.window t)).length ≤ 1 :=
          le_trans (List.filter_sublist _).length_le (by simp)
        omega
      · have : ([now].filter (inWindow lim.window t)) = [] := by
          simp [hmem]
        rw [this]
        simp only [List.append_nil]
        exact hwin t

/-- The limiter invariant holds after any monotone run of calls on one
queue. -/
lemma runQueue_inv (lim : ChatRateLimiter) (hw : 0 ≤ lim.window) :
    ∀ (ts : List Int) (b : Int) (q A : List Int),
      RLInv lim b q A → List.Chain' (· ≤ ·) (b :: ts) →
      ∃ b', RLInv lim b' (runQueue lim q ts).1
        (A ++ (runQueue lim q ts).2) := by
  intro ts
  induction ts with
  | nil =>
    intro b q A hinv _
    exact ⟨b, by simpa [runQueue] using hinv⟩
  | cons t ts ih =>
    intro b q A hinv hchain
    have hbt : b ≤ t := (List.chain'_cons.mp hchain).1
    have hchain2 : List.Chain' (· ≤ ·) (t :: ts) :=
      (List.chain'_cons.mp hchain).2
    have hstep := RLInv_step lim hw b t q A hinv hbt
    obtain ⟨b', hb'⟩ := ih t (allowStep lim q t).2
      (A ++ if (allowStep lim q t).1 then [t] else []) hstep hchain2
    refine ⟨b', ?_⟩
    have h1 : (runQueue lim q (t :: ts)).1
        = (runQueue lim (allowStep lim q t).2 ts).1 := rfl
    have h2 : (runQueue lim q (t :: ts)).2
        = (if (allowStep lim q t).1 then [t] else [])
          ++ (runQueue lim (allowStep lim q t).2 ts).2 := rfl
    rw [h1, h2, ← List.append_assoc]
    exact hb'

/-- The multi-chat run projected to one chat is the single-queue run of
that chat's calls. -/
lemma runCalls_proj (lim : ChatRateLimiter) :
    ∀ (calls : List (Int × Int)) (st : Int → List Int) (c : Int),
      (runCalls lim st calls).1 c
          = (runQueue lim (st c)
              ((calls.filter (fun p => decide (p.1 = c))).map Prod.snd)).1 ∧
        ((runCalls lim st calls).2.filter
            (fun p => decide (p.1 = c))).map Prod.snd
          = (runQueue lim (st c)
              ((calls.filter (fun p => decide (p.1 = c))).map Prod.snd)).2 := by
  intro calls
  induction calls with
  | nil => intro st c; exact ⟨rfl, rfl⟩
  | cons p rest ih =>
    intro st c
    obtain ⟨c', t⟩ := p
    have hstep1 : (runCalls lim st ((c', t) :: rest)).1
        = (runCalls lim (fun x => if x = c' then
            (allowStep lim (st c') t).2 else st x) rest).1 := rfl
    have hstep2 : (runCalls lim st ((c', t) :: rest)).2
        = (if (allowStep lim (st c') t).1 then [(c', t)] else [])
          ++ (runCalls lim (fun x => if x = c' then
            (allowStep lim (st c') t).2 else st x) rest).2 := rfl
    have ih2 := ih (fun x => if x = c' then (allowStep lim (st c') t).2
      else st x) c
    by_cases hc : c' = c
    · subst hc
      have hR : ((((c', t) :: rest).filter
            (fun p => decide (p.1 = c'))).map Prod.snd)
          = t :: ((rest.filter (fun p => decide (p.1 = c'))).map Prod.snd) := by
        simp [List.filter_cons]
      constructor
      · rw [hstep1, ih2.1, hR, if_pos rfl]
        rfl
      · rw [hstep2, List.filter_append, List.map_append, ih2.2, hR,
          if_pos rfl]
        cases hr : (allowStep lim (st c') t).1 <;>
          simp [hr, runQueue]
    · have hc2 : ¬(c = c') := fun h => hc h.symm
      have hR : ((((c', t) :: rest).filter
            (fun p => decide (p.1 = c))).map Prod.snd)
          = ((rest.filter (fun p => decide (p.1 = c))).map Prod.snd) := by
        simp [List.filter_cons, hc]
      constructor
      · rw [hstep1, ih2.1, hR, if_neg hc2]
      · rw [hstep2, List.filter_append, List.map_append, ih2.2, hR,
          if_neg hc2]
        cases hr : (allowStep lim (st c') t).1 <;>
          simp [hr, hc]

/-- Once the oldest recorded entry is older than `now - window`, the next
call is accepted: evicting at least that entry leaves the occupancy below
the maximum. -/
lemma allowStep_accepts_after_eviction (lim : ChatRateLimiter)
    (q : List Int) (now h0 : Int) (hlen : q.length ≤ lim.max_requests)
    (hh : q.head? = some h0) (hlt : h0 < now - lim.window) :
    (allowStep lim q now).1 = true := by
  cases q with
  | nil => simp at hh
  | cons x qt =>
    rw [List.head?_cons, Option.some.injEq] at hh
    subst hh
    have hdw : ((x :: qt).dropWhile
          (fun e => decide (e < now - lim.window)))
        = qt.dropWhile (fun e => decide (e < now - lim.window)) := by
      rw [List.dropWhile_cons]
      simp [hlt]
    have hlen2 : (qt.dropWhile
          (fun e => decide (e < now - lim.window))).length
        < lim.max_requests := by
      have h1 := (List.dropWhile_sublist
        (l := qt) (fun e => decide (e < now - lim.window))).length_le
      have h2 : qt.length + 1 ≤ lim.max_requests := by
        simpa using hlen
      omega
    simp only [allowStep, hdw]
    rw [if_neg (by omega)]

/-- C7: for every chat and every monotone sequence of `allow` calls, at
most `max_requests` calls are accepted within any window `[t, t + window]`
of the configured length, and once the oldest recorded request has fallen
outside the window a further call is accepted again. -/
theorem rate_limiter_window_bound (lim : ChatRateLimiter)
    (hw : 0 ≤ lim.window) (calls : List (Int × Int)) (c : Int)
    (hmono : List.Chain' (· ≤ ·) (calls.map Prod.snd)) :
    (∀ t : Int,
      ((((runCalls lim (fun _ => []) calls).2.filter
            (fun p => decide (p.1 = c))).map Prod.snd).filter
          (inWindow lim.window t)).length ≤ lim.max_requests) ∧
      ∀ now2 h0 : Int,
        ((runCalls lim (fun _ => []) calls).1 c).head? = some h0 →
        h0 < now2 - lim.window →
        (ChatRateLimiter.allow lim (runCalls lim (fun _ => []) calls).1
            c now2).1 = true := by
  obtain ⟨hq, hacc⟩ := runCalls_proj lim calls (fun _ => []) c
  have hchainL : List.Chain' (· ≤ ·)
      ((calls.filter (fun p => decide (p.1 = c))).map Prod.snd) :=
    hmono.sublist ((List.filter_sublist _).map _)
  have hinv0 : RLInv lim
      (((calls.filter (fun p => decide (p.1 = c))).map Prod.snd).headD 0)
      [] [] := by
    refine ⟨List.sorted_nil, by simp, by simp, by simp, by simp⟩
  have hchain0 : List.Chain' (· ≤ ·)
      ((((calls.filter (fun p => decide (p.1 = c))).map
        Prod.snd).headD 0)
        :: ((calls.filter (fun p => decide (p.1 = c))).map Prod.snd)) := by
    cases hL : (calls.filter (fun p => decide (p.1 = c))).map Prod.snd with
    | nil => simp
    | cons x xs =>
      rw [hL] at hchainL
      exact List.chain'_cons.mpr ⟨by simp, hchainL⟩
  obtain ⟨b', hinv'⟩ := runQueue_inv lim hw
    ((calls.filter (fun p => decide (p.1 = c))).map Prod.snd)
    (((calls.filter (fun p => decide (p.1 = c))).map Prod.snd).headD 0)
    [] [] hinv0 hchain0
  obtain ⟨_, _, _, hqlen, hwinA⟩ := hinv'
  constructor
  · intro t
    rw [hacc]
    have := hwinA t
    simpa using this
  · intro now2 h0 hh hlt
    show (allowStep lim ((runCalls lim (fun _ => []) calls).1 c) now2).1
      = true
    rw [hq]
    rw [hq] at hh
    exact allowStep_accepts_after_eviction lim _ now2 h0 hqlen hh hlt

/-- Witness for C7: limiter max 2 per 60 s, three calls of chat 1 within
2 ms: any 60-second window holds at most 2 accepted requests. -/
theorem rate_limiter_window_bound_witness :
    (0 : Int) ≤ (⟨2, 60000000⟩ : ChatRateLimiter).window ∧
      List.Chain' (· ≤ ·)
        (([(1, 0), (1, 1000000), (1, 2000000)]
          : List (Int × Int)).map Prod.snd) ∧
      ∀ t : Int,
        ((((runCalls ⟨2, 60000000⟩ (fun _ => [])
              [(1, 0), (1, 1000000), (1, 2000000)]).2.filter
            (fun p => decide (p.1 = 1))).map Prod.snd).filter
          (inWindow (⟨2, 60000000⟩ : ChatRateLimiter).window t)).length
        ≤ (⟨2, 60000000⟩ : ChatRateLimiter).max_requests :=
  ⟨by decide, by simp [List.chain'_cons],
    (rate_limiter_window_bound ⟨2, 60000000⟩ (by decide)
      [(1, 0), (1, 1000000), (1, 2000000)] 1
      (by simp [List.chain'_cons])).1⟩

end GptBot
